import Mathlib

/-!
Shallow embedding of the rolldown/tsdown UnoCSS plugin (src/index.ts).

The plugin's own coordination logic is translated directly from the source.
External collaborators that live outside this repository are modelled as
abstract interfaces passed in as data:
  * the MagicString text buffer (`MSOps`): an opaque buffer type with
    construction from a source string, materialization (`toString`), and
    source-map derivation; a fresh buffer with no edits materializes back
    to the original string (`toStr_new`);
  * the UnoCSS generator (`Generator`): its registered transformer list
    (`uno.config.transformers`), the per-file token scan
    (`uno.generate(code, { id, minify })`, returning the `matched` set),
    and the final CSS generation (`uno.generate(tokens)`, returning `css`);
  * user-supplied transformers and the optional `onTransform` callback,
    which may mutate the buffer and may fail — fallible asynchronous steps
    are modelled with `Except`.
The JavaScript `Set<string>` token accumulator is modelled as a duplicate-free
insertion-ordered list: `add` appends the element only when it is not already
present, exactly as `Set.prototype.add` does.
-/

namespace UnoPlugin

/-- A registered UnoCSS transformer as consumed by `applyTransformers`
(src/index.ts lines 114-123): an optional identifier filter `idFilter`
and a fallible, buffer-mutating `transform` whose result optionally
carries a list of highlight annotations (`result?.highlightAnnotations`
is `none` when the transformer returns `undefined` or omits the field). -/
structure Transformer (ε Buf Ann : Type) where
  idFilter : Option (String → Bool)
  transform : Buf → String → Except ε (Buf × Option (List Ann))

/-- The generator handle built by `createGenerator`, restricted to the
three capabilities the plugin uses: the registered transformer list
(`uno.config.transformers`, possibly absent), the per-file token scan
(`uno.generate(finalCode, { id, minify })`, its `matched` set given as
an insertion-ordered duplicate-free list), and whole-build CSS
generation from the token set (`uno.generate(tokens)`, its `css`). -/
structure Generator (ε Buf Ann : Type) where
  transformers : Option (List (Transformer ε Buf Ann))
  generate : String → String → Option Bool → Except ε (List String)
  generateCss : List String → Except ε String

/-- The MagicString interface as the plugin uses it: `new MagicString(code)`,
`ms.toString()`, and `ms.generateMap({ hires: true })`. The law `toStr_new`
records the library's documented behavior that a buffer with no edits
materializes to its original source string. -/
structure MSOps (Buf Map : Type) where
  new : String → Buf
  toStr : Buf → String
  generateMap : Buf → Map
  toStr_new : ∀ s, toStr (new s) = s

/-- Whether a transformer runs on a given file identifier: the source skips
a transformer iff `idFilter && !idFilter(id)` (src/index.ts line 115). -/
def shouldRun {ε Buf Ann : Type} (t : Transformer ε Buf Ann) (id : String) : Bool :=
  match t.idFilter with
  | some f => f id
  | none => true

/-- The loop body of `applyTransformers` (src/index.ts lines 113-124):
walk the transformer list in order, skipping filter-rejected entries,
threading the mutable buffer, and pushing each returned annotation list
onto the accumulator. An absent result contributes nothing, exactly as
`if (_annotations) annotations.push(..._annotations)` does. -/
def applyTransformersGo {ε Buf Ann : Type} (id : String)
    (list : List (Transformer ε Buf Ann)) (code : Buf) (acc : List Ann) :
    Except ε (Buf × List Ann) :=
  match list with
  | [] => Except.ok (code, acc)
  | t :: rest =>
    if shouldRun t id then
      match t.transform code id with
      | Except.error e => Except.error e
      | Except.ok (code2, r) => applyTransformersGo id rest code2 (acc ++ r.getD [])
    else
      applyTransformersGo id rest code acc

/-- `applyTransformers` (src/index.ts lines 107-125): if the generator has
no transformer list or an empty one (`!list?.length`) return the empty
annotation list with the buffer untouched; otherwise run the loop. -/
def applyTransformers {ε Buf Ann : Type}
    (transformers : Option (List (Transformer ε Buf Ann)))
    (code : Buf) (id : String) : Except ε (Buf × List Ann) :=
  match transformers with
  | none => Except.ok (code, [])
  | some list =>
    if list.isEmpty then Except.ok (code, [])
    else applyTransformersGo id list code []

/-- `Set.prototype.add` on the token accumulator: append the token only if
it is not already a member (JS sets are insertion-ordered and
deduplicating). -/
def setAdd (s : List String) (t : String) : List String :=
  if t ∈ s then s else s ++ [t]

/-- Lines 167-169 of src/index.ts: `if (matched.size > 0)
matched.forEach((t) => tokens.add(t))` — insert every matched token into
the accumulator. -/
def addMatched (tokens matched : List String) : List String :=
  if 0 < matched.length then matched.foldl setAdd tokens else tokens

/-- Lines 158-160 of src/index.ts: `if (onTransform) await onTransform(id,
ms, annotations)` — the optional user callback, which may mutate the
buffer and may fail; when absent the buffer passes through unchanged. -/
def runOnTransform {ε Buf Ann : Type}
    (onT : Option (String → Buf → List Ann → Except ε Buf))
    (id : String) (ms : Buf) (anns : List Ann) : Except ε Buf :=
  match onT with
  | some f => f id ms anns
  | none => Except.ok ms

/-- The value returned by the transform handler: the rewritten code string
and the derived source map. -/
structure TransformOutput (Map : Type) where
  code : String
  map : Map
deriving DecidableEq

/-- `transform.handler` (src/index.ts lines 151-177), with the shared
mutable token set threaded explicitly: wrap the source in a buffer, apply
the transformers, invoke the optional `onTransform` callback, materialize
the buffer (`finalCode`), scan the materialized text, insert the matched
tokens into the accumulator, and return `finalCode` with its source map
together with the updated accumulator. Any failing step short-circuits
with its error and produces no output and no accumulator update. -/
def transformHandler {ε Buf Ann Map : Type} (gen : Generator ε Buf Ann)
    (onT : Option (String → Buf → List Ann → Except ε Buf))
    (ops : MSOps Buf Map) (minify : Option Bool)
    (tokens : List String) (code id : String) :
    Except ε (TransformOutput Map × List String) :=
  let ms := ops.new code
  match applyTransformers gen.transformers ms id with
  | Except.error e => Except.error e
  | Except.ok (ms1, anns) =>
    match runOnTransform onT id ms1 anns with
    | Except.error e => Except.error e
    | Except.ok ms2 =>
      let finalCode := ops.toStr ms2
      match gen.generate finalCode id minify with
      | Except.error e => Except.error e
      | Except.ok matched =>
        Except.ok (⟨finalCode, ops.generateMap ms2⟩, addMatched tokens matched)

/-- The token-independent part of one file's transform: everything the
handler does except merging the matched tokens into the shared
accumulator. It returns the output together with that file's matched
set; `transformHandler_eq` below shows the handler is exactly this
followed by `addMatched`. -/
def filePipeline {ε Buf Ann Map : Type} (gen : Generator ε Buf Ann)
    (onT : Option (String → Buf → List Ann → Except ε Buf))
    (ops : MSOps Buf Map) (minify : Option Bool) (code id : String) :
    Except ε (TransformOutput Map × List String) :=
  match applyTransformers gen.transformers (ops.new code) id with
  | Except.error e => Except.error e
  | Except.ok (ms1, anns) =>
    match runOnTransform onT id ms1 anns with
    | Except.error e => Except.error e
    | Except.ok ms2 =>
      match gen.generate (ops.toStr ms2) id minify with
      | Except.error e => Except.error e
      | Except.ok matched =>
        Except.ok (⟨ops.toStr ms2, ops.generateMap ms2⟩, matched)

/-- Sequential processing of a list of (identifier, source) files through
the transform handler, threading the token accumulator: one completion
order of the build's transforms. -/
def runFiles {ε Buf Ann Map : Type} (gen : Generator ε Buf Ann)
    (onT : Option (String → Buf → List Ann → Except ε Buf))
    (ops : MSOps Buf Map) (minify : Option Bool)
    (files : List (String × String)) (tokens : List String) :
    Except ε (List String) :=
  match files with
  | [] => Except.ok tokens
  | (id, code) :: rest =>
    match transformHandler gen onT ops minify tokens code id with
    | Except.error e => Except.error e
    | Except.ok (_, t2) => runFiles gen onT ops minify rest t2

/-- An asset registered through `this.emitFile({ type: 'asset', source,
fileName })`. -/
structure EmittedAsset where
  ty : String
  source : String
  fileName : String
deriving DecidableEq

/-- `generateBundle` (src/index.ts lines 181-193), with the emitted assets
as the return value: if CSS generation is disabled, return without
emitting anything and without calling the generator; otherwise generate
CSS from the accumulated token set and emit exactly one asset with the
configured file name. -/
def generateBundle {ε Buf Ann : Type} (generateCSS : Bool)
    (gen : Generator ε Buf Ann) (tokens : List String) (fileName : String) :
    Except ε (List EmittedAsset) :=
  if !generateCSS then Except.ok []
  else
    match gen.generateCss tokens with
    | Except.error e => Except.error e
    | Except.ok css => Except.ok [⟨"asset", css, fileName⟩]

/-- `onInvalidate(fn)` (src/index.ts line 143-145): `cleanup.push(fn)` —
append the callback to the registry. Callbacks are modelled as state
transformers on an abstract world state `S`. -/
def onInvalidate {S : Type} (cleanup : List (S → S)) (fn : S → S) :
    List (S → S) :=
  cleanup ++ [fn]

/-- `invalidate()` (src/index.ts lines 140-142): `cleanup.forEach((c) =>
c())` — run every registered callback in registration order. -/
def invalidate {S : Type} (cleanup : List (S → S)) (s : S) : S :=
  cleanup.foldl (fun acc c => c acc) s

/-- The options object accepted by `unocss(options)`: every field is
optional (`undefined` when omitted), with `Cfg` the opaque inline
`UserConfig` type and the filter modelled by its identifier predicate. -/
structure UnoCSSPluginOptions (Cfg : Type) where
  minify : Option Bool := none
  root : Option String := none
  filter : Option (String → Bool) := none
  fileName : Option String := none
  config : Option Cfg := none
  generateCSS : Option Bool := none

/-- The identifier test of the default filter at src/index.ts line 85: the
regular expression /\.[jt]sx$/ matches exactly the strings ending in
".jsx" or ".tsx". -/
def defaultIdRegexTest (id : String) : Bool :=
  id.endsWith ".jsx" || id.endsWith ".tsx"

/-- The plugin's resolved configuration after the destructuring at
src/index.ts lines 82-90. `minify` is `Option Bool` because the
destructuring gives it no default: omitted stays `undefined`. -/
structure ResolvedOptions (Cfg : Type) where
  root : String
  minify : Option Bool
  filter : String → Bool
  fileName : String
  inlineConfig : Option Cfg
  generateCSS : Bool

/-- The destructuring at src/index.ts lines 82-90: `root = process.cwd()`
(`cwd` passed in), `minify` (no default), `filter = { id: ... }`,
`fileName = 'uno.css'`, `config: inlineConfig` (no default),
`generateCSS = true`. -/
def resolveOptions {Cfg : Type} (cwd : String) (o : UnoCSSPluginOptions Cfg) :
    ResolvedOptions Cfg :=
  { root := o.root.getD cwd
    minify := o.minify
    filter := o.filter.getD defaultIdRegexTest
    fileName := o.fileName.getD "uno.css"
    inlineConfig := o.config
    generateCSS := o.generateCSS.getD true }

/-- Plain sequential execution of a transformer list with no filtering,
written from the claim's words for the refinement comparison: run each
transformer in list order and return the concatenation, in that order,
of the annotation lists the transformers returned. -/
def runSeq {ε Buf Ann : Type} (list : List (Transformer ε Buf Ann))
    (code : Buf) (id : String) : Except ε (Buf × List Ann) :=
  match list with
  | [] => Except.ok (code, [])
  | t :: rest =>
    match t.transform code id with
    | Except.error e => Except.error e
    | Except.ok (c2, r) =>
      match runSeq rest c2 id with
      | Except.error e => Except.error e
      | Except.ok (c3, anns) => Except.ok (c3, r.getD [] ++ anns)

/-! ### Shared lemmas about the token accumulator and the handler -/

theorem mem_setAdd (s : List String) (t x : String) :
    x ∈ setAdd s t ↔ x ∈ s ∨ x = t := by
  unfold setAdd
  by_cases h : t ∈ s
  · simp only [if_pos h]
    constructor
    · exact Or.inl
    · rintro (hx | rfl)
      · exact hx
      · exact h
  · simp [if_neg h]

theorem mem_foldl_setAdd (m : List String) (s : List String) (x : String) :
    x ∈ m.foldl setAdd s ↔ x ∈ s ∨ x ∈ m := by
  induction m generalizing s with
  | nil => simp
  | cons a rest ih =>
    simp only [List.foldl_cons, ih, mem_setAdd, List.mem_cons]
    tauto

theorem mem_addMatched (tokens matched : List String) (x : String) :
    x ∈ addMatched tokens matched ↔ x ∈ tokens ∨ x ∈ matched := by
  unfold addMatched
  by_cases h : 0 < matched.length
  · simp only [if_pos h, mem_foldl_setAdd]
  · have : matched = [] := List.eq_nil_of_length_eq_zero (Nat.eq_zero_of_not_pos h)
    subst this
    simp

theorem subset_addMatched (tokens matched : List String) (x : String)
    (hx : x ∈ tokens) : x ∈ addMatched tokens matched :=
  (mem_addMatched tokens matched x).mpr (Or.inl hx)

/-- The transform handler is the token-independent file pipeline followed
by the accumulator merge: the shared token set flows only into the final
`addMatched` insertion. -/
theorem transformHandler_eq {ε Buf Ann Map : Type} (gen : Generator ε Buf Ann)
    (onT : Option (String → Buf → List Ann → Except ε Buf))
    (ops : MSOps Buf Map) (minify : Option Bool)
    (tokens : List String) (code id : String) :
    transformHandler gen onT ops minify tokens code id =
      (filePipeline gen onT ops minify code id).map
        (fun p => (p.1, addMatched tokens p.2)) := by
  simp only [transformHandler, filePipeline]
  cases h1 : applyTransformers gen.transformers (ops.new code) id with
  | error e => simp [Except.map]
  | ok p =>
    obtain ⟨ms1, anns⟩ := p
    dsimp only
    cases h2 : runOnTransform onT id ms1 anns with
    | error e => simp [h2, Except.map]
    | ok ms2 =>
      cases h3 : gen.generate (ops.toStr ms2) id minify with
      | error e => simp [h2, h3, Except.map]
      | ok matched => simp [h2, h3, Except.map]

/-- The accumulator-passing loop of `applyTransformers` refines the plain
sequential run over the transformers that pass the identifier filter. -/
theorem applyTransformersGo_eq {ε Buf Ann : Type} (id : String)
    (list : List (Transformer ε Buf Ann)) (code : Buf) (acc : List Ann) :
    applyTransformersGo id list code acc =
      (runSeq (list.filter (fun t => shouldRun t id)) code id).map
        (fun p => (p.1, acc ++ p.2)) := by
  induction list generalizing code acc with
  | nil => simp [applyTransformersGo, runSeq, Except.map]
  | cons t rest ih =>
    simp only [applyTransformersGo, List.filter_cons]
    by_cases h : shouldRun t id
    · simp only [h, if_true, runSeq]
      cases ht : t.transform code id with
      | error e => simp [Except.map]
      | ok p =>
        obtain ⟨c2, r⟩ := p
        dsimp only
        rw [ih]
        cases hrest : runSeq (rest.filter (fun t => shouldRun t id)) c2 id with
        | error e => simp [hrest, Except.map]
        | ok q =>
          obtain ⟨c3, anns⟩ := q
          simp [hrest, Except.map, List.append_assoc]
    · simp only [Bool.not_eq_true] at h
      simp only [h, if_false, Bool.false_eq_true, ih]

/-- Running a list of files through the handler succeeds when every file's
pipeline succeeds, and the resulting accumulator contains exactly the
initial tokens plus every token matched by some file's pipeline. -/
theorem runFiles_sound {ε Buf Ann Map : Type} (gen : Generator ε Buf Ann)
    (onT : Option (String → Buf → List Ann → Except ε Buf))
    (ops : MSOps Buf Map) (minify : Option Bool)
    (files : List (String × String)) :
    ∀ tokens : List String,
      (∀ f ∈ files, ∃ p, filePipeline gen onT ops minify f.2 f.1 = Except.ok p) →
      ∃ t, runFiles gen onT ops minify files tokens = Except.ok t ∧
        ∀ x, x ∈ t ↔ (x ∈ tokens ∨ ∃ f ∈ files, ∃ p,
          filePipeline gen onT ops minify f.2 f.1 = Except.ok p ∧ x ∈ p.2) := by
  induction files with
  | nil =>
    intro tokens _
    exact ⟨tokens, rfl, by simp [runFiles]⟩
  | cons f rest ih =>
    obtain ⟨id, code⟩ := f
    intro tokens hok
    obtain ⟨p, hp⟩ := hok (id, code) (List.mem_cons_self _ _)
    have hrest : ∀ g ∈ rest, ∃ q, filePipeline gen onT ops minify g.2 g.1 = Except.ok q :=
      fun g hg => hok g (List.mem_cons_of_mem _ hg)
    obtain ⟨t, ht, hmem⟩ := ih (addMatched tokens p.2) hrest
    have hh : transformHandler gen onT ops minify tokens code id =
        Except.ok (p.1, addMatched tokens p.2) := by
      rw [transformHandler_eq, hp]
      rfl
    refine ⟨t, ?_, ?_⟩
    · simp only [runFiles, hh]
      exact ht
    · intro x
      rw [hmem x]
      simp only [mem_addMatched]
      constructor
      · rintro ((hx | hx) | ⟨g, hg, q, hq, hx⟩)
        · exact Or.inl hx
        · exact Or.inr ⟨(id, code), List.mem_cons_self _ _, p, hp, hx⟩
        · exact Or.inr ⟨g, List.mem_cons_of_mem _ hg, q, hq, hx⟩
      · rintro (hx | ⟨g, hg, q, hq, hx⟩)
        · exact Or.inl (Or.inl hx)
        · rcases List.mem_cons.mp hg with rfl | hg2
          · rw [hp] at hq
            cases hq
            exact Or.inl (Or.inr hx)
          · exact Or.inr ⟨g, hg2, q, hq, hx⟩

/-! ### Concrete instances used by the witnesses -/

/-- Identity MagicString model on plain strings: the buffer is the current
text itself, a fresh buffer is the source string, and materialization is
the identity. -/
def strOps : MSOps String Unit where
  new s := s
  toStr s := s
  generateMap _ := ()
  toStr_new _ := rfl

/-- A variant-group-expanding transformer: rewrites the buffer
"hover:(a b)" to "hover:a hover:b", as transformerVariantGroup would. -/
def expandVG : Transformer String String String :=
  ⟨none, fun ms _ =>
    Except.ok ((if ms = "hover:(a b)" then "hover:a hover:b" else ms), none)⟩

/-- A generator whose scan reports the scanned text itself as the single
matched token, making visible which string the handler scanned. -/
def scanGen : Generator String String String :=
  ⟨some [expandVG], fun code _ _ => Except.ok [code],
    fun ts => Except.ok (String.intercalate ";" ts)⟩

/-! ### Claims -/

/-- C1: for every transformed file the token scan runs on the materialized
post-transform text — the buffer after the transformers and the optional
onTransform callback — never on the original source, and the code string
the handler returns is exactly the string that was scanned (both are the
materialization of the final buffer ms2). -/
theorem c1_scan_on_post_transform_text {ε Buf Ann Map : Type}
    (gen : Generator ε Buf Ann)
    (onT : Option (String → Buf → List Ann → Except ε Buf))
    (ops : MSOps Buf Map) (minify : Option Bool) (tokens : List String)
    (code id : String) (ms1 ms2 : Buf) (anns : List Ann)
    (matched : List String)
    (h1 : applyTransformers gen.transformers (ops.new code) id =
      Except.ok (ms1, anns))
    (h2 : runOnTransform onT id ms1 anns = Except.ok ms2)
    (h3 : gen.generate (ops.toStr ms2) id minify = Except.ok matched) :
    transformHandler gen onT ops minify tokens code id =
      Except.ok (⟨ops.toStr ms2, ops.generateMap ms2⟩,
        addMatched tokens matched) := by
  simp only [transformHandler, h1, h2, h3]

/-- Witness for C1: the file "hover:(a b)" is expanded by the transformer
to "hover:a hover:b"; the scan sees (and the handler returns) the
expanded text, not the original. -/
theorem c1_witness :
    transformHandler scanGen none strOps none [] "hover:(a b)" "app.tsx" =
      Except.ok (⟨"hover:a hover:b", ()⟩, ["hover:a hover:b"]) := by
  have h := c1_scan_on_post_transform_text scanGen none strOps none []
    "hover:(a b)" "app.tsx" "hover:a hover:b" "hover:a hover:b" []
    ["hover:a hover:b"] (by rfl) (by rfl) (by rfl)
  exact h.trans (by rfl)

/-- A transformer that appends a visible marker to the buffer and returns
one annotation. -/
def logT1 : Transformer String String String :=
  ⟨none, fun ms _ => Except.ok (ms ++ "/t1", some ["a1"])⟩

/-- A generator registering the single logging transformer. -/
def logGen : Generator String String String :=
  ⟨some [logT1], fun code _ _ => Except.ok [code],
    fun ts => Except.ok (String.intercalate ";" ts)⟩

/-- An onTransform callback that appends a marker plus every annotation it
received to the buffer, making its call position and its received
annotation list visible in the final text. -/
def logOnT : String → String → List String → Except String String :=
  fun _ ms anns => Except.ok (ms ++ "/onT" ++ String.join anns)

/-- C3: when onTransform is supplied the handler factors as: run all
transformers, apply the callback exactly once to the file id, the
post-transformer buffer and the complete annotation list, and only then
materialize the callback's resulting buffer and scan it. -/
theorem c3_onTransform_exactly_once {ε Buf Ann Map : Type}
    (gen : Generator ε Buf Ann)
    (onT : String → Buf → List Ann → Except ε Buf)
    (ops : MSOps Buf Map) (minify : Option Bool) (tokens : List String)
    (code id : String) (ms1 : Buf) (anns : List Ann)
    (h1 : applyTransformers gen.transformers (ops.new code) id =
      Except.ok (ms1, anns)) :
    transformHandler gen (some onT) ops minify tokens code id =
      Except.bind (onT id ms1 anns) (fun ms2 =>
        (gen.generate (ops.toStr ms2) id minify).map (fun matched =>
          (⟨ops.toStr ms2, ops.generateMap ms2⟩,
            addMatched tokens matched))) := by
  simp only [transformHandler, h1, runOnTransform]
  cases h2 : onT id ms1 anns with
  | error e => simp [h2, Except.bind]
  | ok ms2 =>
    cases h3 : gen.generate (ops.toStr ms2) id minify with
    | error e => simp [h2, h3, Except.bind, Except.map]
    | ok matched => simp [h2, h3, Except.bind, Except.map]

/-- Witness for C3: the transformer appends "/t1" and yields the annotation
"a1"; the callback then appends "/onT" plus the annotations it received;
the scan sees the result. The final text "src/t1/onTa1" shows the
callback ran exactly once, after the transformer, with the full
annotation list, and before the scan. -/
theorem c3_witness :
    transformHandler logGen (some logOnT) strOps none [] "src" "app.tsx" =
      Except.ok (⟨"src/t1/onTa1", ()⟩, ["src/t1/onTa1"]) := by
  have h := c3_onTransform_exactly_once logGen logOnT strOps none []
    "src" "app.tsx" "src/t1" ["a1"] (by rfl)
  exact h.trans (by rfl)

/-- C4: generateBundle emits an asset iff generateCSS is true. Disabled, it
returns no assets and never invokes CSS generation — the equation holds
for every generator, including ones whose generateCss always fails.
Enabled, it factors through exactly one generateCss call on the full
accumulated token set (so the call is made even for an empty set) and
emits exactly one asset named fileName whose source is the generator's
CSS output. -/
theorem c4_generateBundle_iff_generateCSS :
    ∀ (ε Buf Ann : Type) (gen : Generator ε Buf Ann) (tokens : List String)
      (fileName : String),
      generateBundle false gen tokens fileName = Except.ok [] ∧
      generateBundle true gen tokens fileName =
        (gen.generateCss tokens).map
          (fun css => [EmittedAsset.mk "asset" css fileName]) := by
  intro ε Buf Ann gen tokens fileName
  refine ⟨rfl, ?_⟩
  simp only [generateBundle, Bool.not_true, Bool.false_eq_true, if_false]
  cases h : gen.generateCss tokens with
  | error e => simp [Except.map]
  | ok css => simp [Except.map]

/-- C5: applyTransformers runs the registered transformers sequentially in
list order, skips — without invoking — exactly those whose identifier
filter rejects the file id, and returns the in-order concatenation of
the invoked transformers' annotation lists: it equals the plain
sequential run over the filter-passing sublist. -/
theorem c5_applyTransformers_filter_order :
    ∀ (ε Buf Ann : Type) (list : List (Transformer ε Buf Ann)) (code : Buf)
      (id : String),
      applyTransformers (some list) code id =
        runSeq (list.filter (fun t => shouldRun t id)) code id := by
  intro ε Buf Ann list code id
  simp only [applyTransformers]
  by_cases h : list.isEmpty
  · rw [List.isEmpty_iff] at h
    subst h
    simp [runSeq]
  · simp only [h, if_false, Bool.false_eq_true, applyTransformersGo_eq]
    cases hr : runSeq (list.filter (fun t => shouldRun t id)) code id with
    | error e => simp [Except.map]
    | ok p => simp [Except.map]

/-- A generator with no transformers whose scan yields one token per file:
"ta" for the file "a.tsx" and "tb" otherwise. -/
def twoGen : Generator String String String :=
  ⟨none,
    fun _ id _ => Except.ok (if id = "a.tsx" then ["ta"] else ["tb"]),
    fun ts => Except.ok (String.intercalate ";" ts)⟩

/-- C2: for distinct files whose pipelines all succeed and whose matched
token sets are pairwise disjoint, processing them in any completion
order produces accumulators with identical membership, namely the union
of all the files' matched sets. -/
theorem c2_order_independent_union {ε Buf Ann Map : Type}
    (gen : Generator ε Buf Ann)
    (onT : Option (String → Buf → List Ann → Except ε Buf))
    (ops : MSOps Buf Map) (minify : Option Bool)
    (files files2 : List (String × String))
    (hnodup : files.Nodup)
    (hperm : files.Perm files2)
    (hok : ∀ f ∈ files, ∃ p,
      filePipeline gen onT ops minify f.2 f.1 = Except.ok p)
    (hdisj : files.Pairwise (fun f g => ∀ p q,
      filePipeline gen onT ops minify f.2 f.1 = Except.ok p →
      filePipeline gen onT ops minify g.2 g.1 = Except.ok q →
      ∀ x ∈ p.2, x ∉ q.2)) :
    ∃ t t2, runFiles gen onT ops minify files [] = Except.ok t ∧
      runFiles gen onT ops minify files2 [] = Except.ok t2 ∧
      (∀ x, x ∈ t ↔ x ∈ t2) ∧
      (∀ x, x ∈ t ↔ ∃ f ∈ files, ∃ p,
        filePipeline gen onT ops minify f.2 f.1 = Except.ok p ∧ x ∈ p.2) := by
  have hok2 : ∀ f ∈ files2, ∃ p,
      filePipeline gen onT ops minify f.2 f.1 = Except.ok p :=
    fun f hf => hok f (hperm.mem_iff.mpr hf)
  obtain ⟨t, ht, hm⟩ := runFiles_sound gen onT ops minify files [] hok
  obtain ⟨t2, ht2, hm2⟩ := runFiles_sound gen onT ops minify files2 [] hok2
  refine ⟨t, t2, ht, ht2, ?_, ?_⟩
  · intro x
    rw [hm x, hm2 x]
    constructor
    · rintro (hx | ⟨f, hf, hp⟩)
      · cases hx
      · exact Or.inr ⟨f, hperm.mem_iff.mp hf, hp⟩
    · rintro (hx | ⟨f, hf, hp⟩)
      · cases hx
      · exact Or.inr ⟨f, hperm.mem_iff.mpr hf, hp⟩
  · intro x
    rw [hm x]
    simp only [List.not_mem_nil, false_or]

/-- Witness for C2: the two files "a.tsx" and "b.tsx" match the disjoint
singleton sets containing "ta" and "tb"; both processing orders give the
accumulator whose members are exactly those of the union. -/
theorem c2_witness :
    ∃ t t2,
      runFiles twoGen none strOps none
        [("a.tsx", "ca"), ("b.tsx", "cb")] [] = Except.ok t ∧
      runFiles twoGen none strOps none
        [("b.tsx", "cb"), ("a.tsx", "ca")] [] = Except.ok t2 ∧
      (∀ x, x ∈ t ↔ x ∈ t2) ∧
      (∀ x, x ∈ t ↔ ∃ f ∈ [("a.tsx", "ca"), ("b.tsx", "cb")], ∃ p,
        filePipeline twoGen none strOps none f.2 f.1 = Except.ok p ∧
          x ∈ p.2) := by
  refine c2_order_independent_union twoGen none strOps none
    [("a.tsx", "ca"), ("b.tsx", "cb")] [("b.tsx", "cb"), ("a.tsx", "ca")]
    (by decide) (List.Perm.swap ("b.tsx", "cb") ("a.tsx", "ca") []) ?_ ?_
  · intro f hf
    rcases List.mem_cons.mp hf with rfl | hf2
    · exact ⟨(⟨"ca", ()⟩, ["ta"]), rfl⟩
    · rcases List.mem_cons.mp hf2 with rfl | hf3
      · exact ⟨(⟨"cb", ()⟩, ["tb"]), rfl⟩
      · cases hf3
  · refine List.Pairwise.cons ?_ (List.pairwise_singleton _ _)
    intro g hg
    rcases List.mem_cons.mp hg with rfl | hg2
    · intro p q hp hq x hx hx2
      injection hp with hpp
      injection hq with hqq
      subst hpp
      subst hqq
      simp at hx hx2
      subst hx
      exact absurd hx2 (by decide)
    · cases hg2

/-- A transformer that always fails with the error "boom". -/
def failT : Transformer String String String :=
  ⟨none, fun _ _ => Except.error "boom"⟩

/-- A generator registering only the failing transformer. -/
def failGen : Generator String String String :=
  ⟨some [failT], fun code _ _ => Except.ok [code],
    fun ts => Except.ok (String.intercalate ";" ts)⟩

/-- C6: if the transformer stage, the onTransform callback, or the token
scan fails for a file, the transform handler for that file produces no
result at all — it returns exactly the propagated error, so no code, no
source map and no accumulator update exist for that file (tokens are
merged only into a successful result). -/
theorem c6_error_propagation {ε Buf Ann Map : Type}
    (gen : Generator ε Buf Ann)
    (onT : Option (String → Buf → List Ann → Except ε Buf))
    (ops : MSOps Buf Map) (minify : Option Bool) (tokens : List String)
    (code id : String) (e : ε) :
    (applyTransformers gen.transformers (ops.new code) id = Except.error e →
      transformHandler gen onT ops minify tokens code id = Except.error e) ∧
    (∀ ms1 anns,
      applyTransformers gen.transformers (ops.new code) id =
        Except.ok (ms1, anns) →
      runOnTransform onT id ms1 anns = Except.error e →
      transformHandler gen onT ops minify tokens code id = Except.error e) ∧
    (∀ ms1 anns ms2,
      applyTransformers gen.transformers (ops.new code) id =
        Except.ok (ms1, anns) →
      runOnTransform onT id ms1 anns = Except.ok ms2 →
      gen.generate (ops.toStr ms2) id minify = Except.error e →
      transformHandler gen onT ops minify tokens code id = Except.error e) := by
  refine ⟨?_, ?_, ?_⟩
  · intro h1
    simp [transformHandler, h1]
  · intro ms1 anns h1 h2
    simp [transformHandler, h1, h2]
  · intro ms1 anns ms2 h1 h2 h3
    simp [transformHandler, h1, h2, h3]

/-- Witness for C6: with a transformer that fails with "boom", the handler
fails with "boom" and produces no output pair at all. -/
theorem c6_witness :
    transformHandler failGen none strOps none ["old"] "code" "app.tsx" =
      Except.error "boom" :=
  (c6_error_propagation failGen none strOps none ["old"] "code" "app.tsx"
    "boom").1 (by rfl)

/-- C7: token accumulator invariants. Inserting a token already present is
a no-op; a successful transform only extends the accumulator; the
handler factors so the shared accumulator flows only into the final
insertion (the transform phase never otherwise reads it); and the
finalize step reads it exactly once, in full, through the single CSS
generation call. -/
theorem c7_accumulator_invariants :
    (∀ (s : List String) (t : String), t ∈ s → setAdd s t = s) ∧
    (∀ (ε Buf Ann Map : Type) (gen : Generator ε Buf Ann)
      (onT : Option (String → Buf → List Ann → Except ε Buf))
      (ops : MSOps Buf Map) (minify : Option Bool) (tokens : List String)
      (code id : String) (r : TransformOutput Map × List String),
      transformHandler gen onT ops minify tokens code id = Except.ok r →
      ∀ x ∈ tokens, x ∈ r.2) ∧
    (∀ (ε Buf Ann Map : Type) (gen : Generator ε Buf Ann)
      (onT : Option (String → Buf → List Ann → Except ε Buf))
      (ops : MSOps Buf Map) (minify : Option Bool) (tokens : List String)
      (code id : String),
      transformHandler gen onT ops minify tokens code id =
        (filePipeline gen onT ops minify code id).map
          (fun p => (p.1, addMatched tokens p.2))) ∧
    (∀ (ε Buf Ann : Type) (gen : Generator ε Buf Ann) (tokens : List String)
      (fileName : String),
      generateBundle true gen tokens fileName =
        (gen.generateCss tokens).map
          (fun css => [EmittedAsset.mk "asset" css fileName])) := by
  refine ⟨?_, ?_, ?_, ?_⟩
  · intro s t ht
    simp [setAdd, ht]
  · intro ε Buf Ann Map gen onT ops minify tokens code id r hr x hx
    rw [transformHandler_eq] at hr
    cases hp : filePipeline gen onT ops minify code id with
    | error e =>
      rw [hp] at hr
      cases hr
    | ok p =>
      rw [hp] at hr
      simp only [Except.map] at hr
      cases hr
      exact subset_addMatched tokens p.2 x hx
  · intro ε Buf Ann Map gen onT ops minify tokens code id
    exact transformHandler_eq gen onT ops minify tokens code id
  · intro ε Buf Ann gen tokens fileName
    simp only [generateBundle, Bool.not_true, Bool.false_eq_true, if_false]
    cases h : gen.generateCss tokens with
    | error e => simp [Except.map]
    | ok css => simp [Except.map]

/-- Witness for C7: adding the already-present token "a" leaves the set
["a", "b"] unchanged, and the transform carrying accumulator ["old"]
keeps "old" in its result. -/
theorem c7_witness :
    setAdd ["a", "b"] "a" = ["a", "b"] ∧ "old" ∈ ["old", "ta"] :=
  ⟨c7_accumulator_invariants.1 ["a", "b"] "a" (by decide),
   c7_accumulator_invariants.2.1 String String String Unit twoGen none strOps
     none ["old"] "ca" "a.tsx" (⟨"ca", ()⟩, ["old", "ta"]) (by rfl)
     "old" (by decide)⟩

/-- C9: the cleanup registry is append-only — onInvalidate is exactly an
append, so no registered callback is ever removed — and invalidate runs
every registered callback exactly once in registration order: when each
callback logs its own tag, invalidation extends the log by exactly the
registration sequence. -/
theorem c9_cleanup_registry :
    (∀ (S : Type) (cleanup : List (S → S)) (fn : S → S),
      onInvalidate cleanup fn = cleanup ++ [fn]) ∧
    (∀ (ids : List Nat) (s : List Nat),
      invalidate (ids.map (fun i => fun log => log ++ [i])) s = s ++ ids) := by
  constructor
  · intro S cleanup fn
    rfl
  · intro ids
    induction ids with
    | nil =>
      intro s
      simp [invalidate]
    | cons i rest ih =>
      intro s
      have h1 : invalidate ((i :: rest).map (fun i => fun log => log ++ [i])) s =
          invalidate (rest.map (fun i => fun log => log ++ [i])) (s ++ [i]) := rfl
      rw [h1, ih (s ++ [i]), List.append_assoc]
      rfl

/-- C10: with no registered transformers (absent or empty list) and no
onTransform callback, the handler is the identity on the code text: the
transformer stage returns the untouched buffer with no annotations, the
returned code equals the input source string, and the file still
contributes its scanned tokens to the accumulator. -/
theorem c10_identity_without_transformers {ε Buf Ann Map : Type}
    (gen : Generator ε Buf Ann) (ops : MSOps Buf Map) (minify : Option Bool)
    (tokens : List String) (code id : String) (matched : List String)
    (hT : gen.transformers = none ∨ gen.transformers = some [])
    (hscan : gen.generate code id minify = Except.ok matched) :
    applyTransformers gen.transformers (ops.new code) id =
      Except.ok (ops.new code, []) ∧
    transformHandler gen none ops minify tokens code id =
      Except.ok (⟨code, ops.generateMap (ops.new code)⟩,
        addMatched tokens matched) := by
  have hA : applyTransformers gen.transformers (ops.new code) id =
      Except.ok (ops.new code, []) := by
    rcases hT with h | h <;> simp [applyTransformers, h]
  refine ⟨hA, ?_⟩
  simp only [transformHandler, hA, runOnTransform, ops.toStr_new, hscan]

/-- Witness for C10: with the transformer-free generator and no callback,
the file "ca" comes back verbatim and still contributes its matched
token "ta". -/
theorem c10_witness :
    transformHandler twoGen none strOps none [] "ca" "a.tsx" =
      Except.ok (⟨"ca", ()⟩, ["ta"]) :=
  ((c10_identity_without_transformers twoGen strOps none [] "ca" "a.tsx"
    ["ta"] (Or.inl rfl) (by rfl)).2).trans (by rfl)

/-- C8 counterexample: at the empty options object the claimed conjunction
of defaults fails, because the destructuring at src/index.ts line 84
gives minify no default — an omitted minify stays undefined, it does not
become the value false. -/
theorem c8_counterexample :
    ¬ ((resolveOptions "/cwd" ({} : UnoCSSPluginOptions Unit)).minify =
          some false ∧
       (resolveOptions "/cwd" ({} : UnoCSSPluginOptions Unit)).root =
          "/cwd" ∧
       (resolveOptions "/cwd" ({} : UnoCSSPluginOptions Unit)).filter =
          defaultIdRegexTest ∧
       (resolveOptions "/cwd" ({} : UnoCSSPluginOptions Unit)).fileName =
          "uno.css" ∧
       (resolveOptions "/cwd" ({} : UnoCSSPluginOptions Unit)).inlineConfig =
          none ∧
       (resolveOptions "/cwd" ({} : UnoCSSPluginOptions Unit)).generateCSS =
          true) := by
  intro h
  exact Option.noConfusion h.1

/-- C8 amended: when the options object omits them, root defaults to the
process working directory, the filter to the identifier test of
/\.[jt]sx$/ (identifiers ending in ".jsx" or ".tsx"), fileName to
"uno.css", the inline config to absent, and generateCSS to true; minify
however takes no default — it is left undefined (none), which is falsy
and therefore behaves as false where it is forwarded, but is not the
value false. -/
theorem c8_amended_defaults :
    ∀ (Cfg : Type) (cwd : String),
      (resolveOptions cwd ({} : UnoCSSPluginOptions Cfg)).root = cwd ∧
      (resolveOptions cwd ({} : UnoCSSPluginOptions Cfg)).minify = none ∧
      (resolveOptions cwd ({} : UnoCSSPluginOptions Cfg)).filter =
        defaultIdRegexTest ∧
      (∀ id, (resolveOptions cwd ({} : UnoCSSPluginOptions Cfg)).filter id =
        (id.endsWith ".jsx" || id.endsWith ".tsx")) ∧
      (resolveOptions cwd ({} : UnoCSSPluginOptions Cfg)).fileName =
        "uno.css" ∧
      (resolveOptions cwd ({} : UnoCSSPluginOptions Cfg)).inlineConfig =
        none ∧
      (resolveOptions cwd ({} : UnoCSSPluginOptions Cfg)).generateCSS =
        true := by
  intro Cfg cwd
  simp [resolveOptions, Option.getD_none, defaultIdRegexTest]

end UnoPlugin
